import Mathlib

/-
Verification of clevo-fancontrol (clevo-fancontrol.c).

Shallow embedding conventions:
* C `float` arithmetic is modelled by exact rational arithmetic over `ℚ`.
  All float constants of the program (10.0f, 40.0f, 100.0f, 70.0f, 0.2f)
  denote the corresponding rationals.
* The C cast `(int)` applied to a float value truncates toward zero; it is
  modelled by `ctrunc`.
* Machine `int` values are modelled by `ℤ`, byte values read from ports by `ℕ`.
* Hardware port input is modelled by an explicit stream `inbAt : ℕ → ℕ`
  giving the byte returned by the n-th `inb` on the status port.
-/

/-- Truncation toward zero of a rational, the meaning of the C cast
`(int)` applied to a float value. -/
def ctrunc (q : ℚ) : ℤ := if q < 0 then -((-q).floor) else q.floor

/-- Configuration constant RATE (line 36): polls per second. -/
def RATE : ℕ := 5

/-- Configuration constant TEMP_HISTORY_DURATION (line 41): seconds of history. -/
def TEMP_HISTORY_DURATION : ℕ := 5

/-- Configuration constant MIN_DUTY (line 49). -/
def MIN_DUTY : ℚ := 10

/-- Configuration constant MIN_DUTY_TEMP (line 52). -/
def MIN_DUTY_TEMP : ℚ := 40

/-- Configuration constant MAX_DUTY (line 56). -/
def MAX_DUTY : ℚ := 100

/-- Configuration constant MAX_DUTY_TEMP (line 59). -/
def MAX_DUTY_TEMP : ℚ := 70

/-- TEMP_HISTORY_LEN (line 76): capacity of the temperature history. -/
def TEMP_HISTORY_LEN : ℕ := RATE * TEMP_HISTORY_DURATION

/-- Embeds the source function `max` (line 80): `(a > b) ? a : b`. -/
def cMax (a b : ℤ) : ℤ := if a > b then a else b

/-- Embeds `temp_to_duty` (lines 137-151), stage `x` (lines 139-142):
scale the temperature into [0,1], clamping on both sides. -/
def duty_x (temp : ℤ) : ℚ :=
  let x0 : ℚ := ((temp : ℚ) - MIN_DUTY_TEMP) / (MAX_DUTY_TEMP - MIN_DUTY_TEMP)
  let x1 : ℚ := if x0 < 0 then 0 else x0
  if x1 > 1 then 1 else x1

/-- The curvature constant `linear_component = 0.2f` (line 144). -/
def linear_component : ℚ := 1/5

/-- Embeds `temp_to_duty`, stage `y` (line 145): map [0,1] to [0,1]. -/
def duty_y (x : ℚ) : ℚ := x * (x + linear_component) / (1 + linear_component)

/-- Embeds `temp_to_duty` (lines 137-151): the full duty curve, with the
final C cast to `int` (line 147) as truncation toward zero. -/
def temp_to_duty (temp : ℤ) : ℤ :=
  ctrunc (duty_y (duty_x temp) * (MAX_DUTY - MIN_DUTY) + MIN_DUTY)

/-- Embeds the input sanitizing of `ec_write_fan_duty` (lines 178-179):
clamp the requested percentage to [10,100]. -/
def ec_write_sanitize (duty_percentage : ℤ) : ℤ :=
  let d1 : ℤ := if duty_percentage < 10 then 10 else duty_percentage
  if d1 > 100 then 100 else d1

/-- Embeds `ec_write_fan_duty` (lines 176-183): the byte value `v_i`
transmitted to the hardware for a requested duty percentage. -/
def ec_write_fan_duty_byte (duty_percentage : ℤ) : ℤ :=
  ctrunc ((ec_write_sanitize duty_percentage : ℚ) / 100 * 255)

/-- Embeds `ec_query_fan_rpms` (lines 167-173) as a function of the two
raw RPM register bytes; `<< 8` is multiplication by 2^8 and the C `/`
on positive ints is `Int.tdiv`. -/
def ec_query_fan_rpms (raw_rpm_hi raw_rpm_lo : ℤ) : ℤ :=
  let raw_rpm : ℤ := raw_rpm_hi * 2 ^ 8 + raw_rpm_lo
  if raw_rpm > 0 then (2156220 : ℤ).tdiv raw_rpm else 0

/-- Embeds the polling loop of `ec_io_wait` (lines 187-192).
State: remaining permitted iterations `fuel` (the C guard is `i++ < 100`,
so `fuel = 100 - i`), the last byte `data` read from the status port, and
the number `iters` of loop-body iterations performed so far (each one
sleeps 1 ms and polls the port once).  Returns the final data byte, the
total number of loop-body iterations, and whether the diagnostic warning
of lines 193-196 (`i >= 100`) is printed. -/
def ec_io_wait_go (inbAt : ℕ → ℕ) (flag value : ℕ) : ℕ → ℕ → ℕ → ℕ × ℕ × Bool
  | 0, data, iters => (data, iters, true)
  | fuel + 1, data, iters =>
    if (data >>> flag) &&& 1 = value then (data, iters, false)
    else ec_io_wait_go inbAt flag value fuel (inbAt (iters + 1)) (iters + 1)

/-- Embeds `ec_io_wait` (lines 185-197): initial read of the status port
(`inbAt 0`), then the bounded polling loop with `i = 0`.  `inbAt n` is the
byte produced by the n-th read of the status port. -/
def ec_io_wait (inbAt : ℕ → ℕ) (flag value : ℕ) : ℕ × ℕ × Bool :=
  ec_io_wait_go inbAt flag value 100 (inbAt 0) 0

/-- The temperature history (lines 76-78): backing buffer and write cursor. -/
structure TempHistory where
  buf : List ℤ
  pos : ℕ
deriving DecidableEq

/-- Embeds lines 106-107: store the sample at the cursor, advance the
cursor modulo TEMP_HISTORY_LEN. -/
def push (h : TempHistory) (temp_cur : ℤ) : TempHistory :=
  ⟨h.buf.set h.pos temp_cur, (h.pos + 1) % TEMP_HISTORY_LEN⟩

/-- Embeds lines 110-111: the maximum over all slots, starting from 0. -/
def windowedMax (h : TempHistory) : ℤ := h.buf.foldl cMax 0

/-- The mutable state of the control loop: `prev_duty` (line 99) and the
temperature history. -/
structure LoopState where
  prev_duty : ℤ
  hist : TempHistory
deriving DecidableEq

/-- The state right before the first cycle: zeroed history (line 88),
cursor 0 (line 78), `prev_duty = -1` (line 99). -/
def initState : LoopState := ⟨-1, ⟨List.replicate TEMP_HISTORY_LEN 0, 0⟩⟩

/-- The duty computed by one cycle of the loop body (lines 103-114) in
state `s` when the sampled temperature is `temp_cur`: log the sample,
then apply the curve to the windowed maximum. -/
def computedDuty (s : LoopState) (temp_cur : ℤ) : ℤ :=
  temp_to_duty (windowedMax (push s.hist temp_cur))

/-- Embeds one iteration of the control loop body (lines 101-134), with
the hardware sampling abstracted into the input `temp_cur` and the
hardware duty write reported as the second component: `some d` when
lines 128-131 write duty `d`, `none` when the write is suppressed. -/
def loopStep (s : LoopState) (temp_cur : ℤ) : LoopState × Option ℤ :=
  let hist := push s.hist temp_cur
  let new_duty := temp_to_duty (windowedMax hist)
  if new_duty ≠ s.prev_duty then (⟨new_duty, hist⟩, some new_duty)
  else (⟨s.prev_duty, hist⟩, none)

/-- The number of physical duty writes among the reported cycle outputs. -/
def writeCount (ws : List (Option ℤ)) : ℕ := (ws.filterMap id).length

/-- `pushZeros h k` pushes `k` zero samples into the history, the scenario
of the history-aging property (all-zero samples after a spike). -/
def pushZeros (h : TempHistory) : ℕ → TempHistory
  | 0 => h
  | k + 1 => push (pushZeros h k) 0

/-! ### Helper lemmas about `ctrunc` -/

lemma ctrunc_eq_floor {q : ℚ} (h : 0 ≤ q) : ctrunc q = ⌊q⌋ := by
  rw [ctrunc, if_neg (not_lt.mpr h), Rat.floor_def', Rat.floor_def]

lemma ctrunc_mono {q r : ℚ} (hq : 0 ≤ q) (h : q ≤ r) : ctrunc q ≤ ctrunc r := by
  rw [ctrunc_eq_floor hq, ctrunc_eq_floor (hq.trans h)]
  exact Int.floor_le_floor h

lemma le_ctrunc {n : ℤ} {q : ℚ} (hq : 0 ≤ q) (h : (n : ℚ) ≤ q) : n ≤ ctrunc q := by
  rw [ctrunc_eq_floor hq]; exact Int.le_floor.mpr h

lemma ctrunc_le {n : ℤ} {q : ℚ} (hq : 0 ≤ q) (h : q ≤ (n : ℚ)) : ctrunc q ≤ n := by
  rw [ctrunc_eq_floor hq]
  calc ⌊q⌋ ≤ ⌊(n:ℚ)⌋ := Int.floor_le_floor h
  _ = n := Int.floor_intCast n

lemma ctrunc_intCast (n : ℤ) (h : 0 ≤ n) : ctrunc (n : ℚ) = n := by
  rw [ctrunc_eq_floor (by exact_mod_cast h)]; exact Int.floor_intCast n

/-! ### Helper lemmas about the duty curve -/

lemma duty_x_eq (t : ℤ) :
    duty_x t = max 0 (min 1 (((t : ℚ) - MIN_DUTY_TEMP) / (MAX_DUTY_TEMP - MIN_DUTY_TEMP))) := by
  rw [duty_x]
  set q : ℚ := ((t : ℚ) - MIN_DUTY_TEMP) / (MAX_DUTY_TEMP - MIN_DUTY_TEMP) with hq
  by_cases h1 : q < 0
  · rw [if_pos h1, if_neg (by norm_num), min_eq_right (by linarith : q ≤ 1),
      max_eq_left (le_of_lt h1)]
  · rw [if_neg h1]
    by_cases h2 : q > 1
    · rw [if_pos h2, min_eq_left (le_of_lt h2), max_eq_right (by norm_num : (0:ℚ) ≤ 1)]
    · rw [if_neg h2, min_eq_right (not_lt.mp h2), max_eq_right (not_lt.mp h1)]

lemma duty_x_nonneg (t : ℤ) : 0 ≤ duty_x t := by
  rw [duty_x_eq]; exact le_max_left 0 _

lemma duty_x_le_one (t : ℤ) : duty_x t ≤ 1 := by
  rw [duty_x_eq]
  exact max_le (by norm_num) (min_le_left 1 _)

lemma duty_x_mono {t1 t2 : ℤ} (h : t1 ≤ t2) : duty_x t1 ≤ duty_x t2 := by
  rw [duty_x_eq, duty_x_eq]
  have h1 : (t1 : ℚ) ≤ (t2 : ℚ) := by exact_mod_cast h
  have hd : (0:ℚ) < MAX_DUTY_TEMP - MIN_DUTY_TEMP := by norm_num [MAX_DUTY_TEMP, MIN_DUTY_TEMP]
  gcongr

lemma duty_y_mono {a b : ℚ} (ha : 0 ≤ a) (h : a ≤ b) : duty_y a ≤ duty_y b := by
  rw [duty_y, duty_y, linear_component]
  rw [div_le_div_iff₀ (by norm_num) (by norm_num)]
  nlinarith

lemma duty_y_nonneg {x : ℚ} (hx : 0 ≤ x) : 0 ≤ duty_y x := by
  rw [duty_y, linear_component]
  positivity

lemma duty_y_le_one {x : ℚ} (hx0 : 0 ≤ x) (hx1 : x ≤ 1) : duty_y x ≤ 1 := by
  rw [duty_y, linear_component]
  rw [div_le_one (by norm_num)]
  nlinarith

lemma duty_val_ge (t : ℤ) : (10:ℚ) ≤ duty_y (duty_x t) * (MAX_DUTY - MIN_DUTY) + MIN_DUTY := by
  have h := duty_y_nonneg (duty_x_nonneg t)
  rw [MAX_DUTY, MIN_DUTY]; nlinarith

lemma duty_val_le (t : ℤ) : duty_y (duty_x t) * (MAX_DUTY - MIN_DUTY) + MIN_DUTY ≤ (100:ℚ) := by
  have h := duty_y_le_one (duty_x_nonneg t) (duty_x_le_one t)
  have h0 := duty_y_nonneg (duty_x_nonneg t)
  rw [MAX_DUTY, MIN_DUTY]; nlinarith

lemma temp_to_duty_ge (t : ℤ) : 10 ≤ temp_to_duty t := by
  rw [temp_to_duty]
  exact le_ctrunc (by linarith [duty_val_ge t]) (by exact_mod_cast duty_val_ge t)

lemma temp_to_duty_le (t : ℤ) : temp_to_duty t ≤ 100 := by
  rw [temp_to_duty]
  exact ctrunc_le (by linarith [duty_val_ge t]) (by exact_mod_cast duty_val_le t)

lemma temp_to_duty_mono {t1 t2 : ℤ} (h : t1 ≤ t2) : temp_to_duty t1 ≤ temp_to_duty t2 := by
  rw [temp_to_duty, temp_to_duty]
  apply ctrunc_mono (by linarith [duty_val_ge t1])
  have hy := duty_y_mono (duty_x_nonneg t1) (duty_x_mono h)
  rw [MAX_DUTY, MIN_DUTY] at *
  nlinarith

lemma temp_to_duty_low {t : ℤ} (h : t ≤ 40) : temp_to_duty t = 10 := by
  have h1 : (t : ℚ) ≤ 40 := by exact_mod_cast h
  have hx : duty_x t = 0 := by
    rw [duty_x_eq, MIN_DUTY_TEMP, MAX_DUTY_TEMP]
    have hq : ((t:ℚ) - 40) / (70 - 40) ≤ 0 :=
      div_nonpos_of_nonpos_of_nonneg (by linarith) (by norm_num)
    rw [min_eq_right (by linarith), max_eq_left hq]
  have hy : duty_y 0 = 0 := by rw [duty_y, linear_component]; norm_num
  have hv : duty_y (duty_x t) * (MAX_DUTY - MIN_DUTY) + MIN_DUTY = ((10:ℤ) : ℚ) := by
    rw [hx, hy, MAX_DUTY, MIN_DUTY]; norm_num
  rw [temp_to_duty, hv, ctrunc_intCast 10 (by norm_num)]

lemma temp_to_duty_high {t : ℤ} (h : 70 ≤ t) : temp_to_duty t = 100 := by
  have h1 : (70 : ℚ) ≤ (t : ℚ) := by exact_mod_cast h
  have hx : duty_x t = 1 := by
    rw [duty_x_eq, MIN_DUTY_TEMP, MAX_DUTY_TEMP]
    have hq : (1:ℚ) ≤ ((t:ℚ) - 40) / (70 - 40) := by
      rw [le_div_iff₀ (by norm_num)]; linarith
    rw [min_eq_left hq, max_eq_right (by norm_num : (0:ℚ) ≤ 1)]
  have hy : duty_y 1 = 1 := by rw [duty_y, linear_component]; norm_num
  have hv : duty_y (duty_x t) * (MAX_DUTY - MIN_DUTY) + MIN_DUTY = ((100:ℤ) : ℚ) := by
    rw [hx, hy, MAX_DUTY, MIN_DUTY]; norm_num
  rw [temp_to_duty, hv, ctrunc_intCast 100 (by norm_num)]

lemma ec_write_sanitize_eq (d : ℤ) : ec_write_sanitize d = min 100 (max 10 d) := by
  rw [ec_write_sanitize]
  split_ifs <;> omega

/-! ### Helper lemmas about the polling loop -/

lemma ec_io_wait_go_never (inbAt : ℕ → ℕ) (flag value : ℕ)
    (h : ∀ n, (inbAt n >>> flag) &&& 1 ≠ value) :
    ∀ fuel iters, ec_io_wait_go inbAt flag value fuel (inbAt iters) iters =
      (inbAt (iters + fuel), iters + fuel, true) := by
  intro fuel
  induction fuel with
  | zero => intro iters; simp [ec_io_wait_go]
  | succ n ih =>
    intro iters
    rw [ec_io_wait_go, if_neg (h iters), ih (iters + 1)]
    have e : iters + 1 + n = iters + (n + 1) := by omega
    rw [e]

/-! ### Helper lemmas about the history window -/

lemma cMax_zero_right {a : ℤ} (ha : 0 ≤ a) : cMax a 0 = a := by
  rw [cMax]; split_ifs <;> omega

lemma foldl_cMax_replicate_zero (n : ℕ) {a : ℤ} (ha : 0 ≤ a) :
    (List.replicate n (0:ℤ)).foldl cMax a = a := by
  induction n with
  | zero => rfl
  | succ m ih => rw [List.replicate_succ, List.foldl_cons, cMax_zero_right ha, ih]

lemma set_replicate_split (n p : ℕ) (v : ℤ) (hp : p < n) :
    (List.replicate n (0:ℤ)).set p v =
      List.replicate p 0 ++ v :: List.replicate (n - p - 1) 0 := by
  induction p generalizing n with
  | zero =>
    cases n with
    | zero => omega
    | succ m => simp [List.replicate_succ]
  | succ q ih =>
    cases n with
    | zero => omega
    | succ m =>
      have hqm : q < m := by omega
      simp only [List.replicate_succ, List.set_cons_succ, List.cons_append]
      have harith : m + 1 - (q + 1) - 1 = m - q - 1 := by omega
      rw [harith, ih m hqm]

lemma foldl_cMax_spike (n p : ℕ) (v : ℤ) (hp : p < n) (hv : 0 ≤ v) :
    ((List.replicate n (0:ℤ)).set p v).foldl cMax 0 = v := by
  rw [set_replicate_split n p v hp, List.foldl_append,
    foldl_cMax_replicate_zero p le_rfl, List.foldl_cons]
  have h0 : cMax 0 v = v := by rw [cMax]; split_ifs <;> omega
  rw [h0, foldl_cMax_replicate_zero _ hv]

lemma set_set_zero_ne (n p q : ℕ) (v : ℤ) (hne : q ≠ p) :
    ((List.replicate n (0:ℤ)).set p v).set q 0 = (List.replicate n 0).set p v := by
  apply List.ext_getElem (by simp)
  intro i h1 h2
  simp only [List.getElem_set, List.getElem_replicate]
  split_ifs <;> first | rfl | omega

lemma set_set_same_zero (n p : ℕ) (v : ℤ) :
    ((List.replicate n (0:ℤ)).set p v).set p 0 = List.replicate n 0 := by
  rw [List.set_set]
  apply List.ext_getElem (by simp)
  intro i h1 h2
  simp only [List.getElem_set, List.getElem_replicate]
  split_ifs <;> rfl

lemma pushZeros_spike (p : ℕ) (v : ℤ) (hp : p < TEMP_HISTORY_LEN) :
    ∀ k, k ≤ TEMP_HISTORY_LEN - 1 →
      pushZeros (push ⟨List.replicate TEMP_HISTORY_LEN 0, p⟩ v) k =
        ⟨(List.replicate TEMP_HISTORY_LEN 0).set p v,
          (p + 1 + k) % TEMP_HISTORY_LEN⟩ := by
  have hN : TEMP_HISTORY_LEN = 25 := rfl
  intro k
  induction k with
  | zero => intro _; rfl
  | succ m ih =>
    intro hk
    rw [pushZeros, ih (by omega), push]
    dsimp only
    have hne : (p + 1 + m) % TEMP_HISTORY_LEN ≠ p := by
      rw [hN] at hp ⊢; omega
    congr 1
    · exact set_set_zero_ne _ _ _ _ hne
    · rw [hN] at hp ⊢; omega

lemma pushZeros_full (p : ℕ) (v : ℤ) (hp : p < TEMP_HISTORY_LEN) :
    pushZeros (push ⟨List.replicate TEMP_HISTORY_LEN 0, p⟩ v) TEMP_HISTORY_LEN =
      ⟨List.replicate TEMP_HISTORY_LEN 0, (p + 1) % TEMP_HISTORY_LEN⟩ := by
  have hN : TEMP_HISTORY_LEN = 25 := rfl
  have hstep : pushZeros (push ⟨List.replicate TEMP_HISTORY_LEN 0, p⟩ v) TEMP_HISTORY_LEN =
      push (pushZeros (push ⟨List.replicate TEMP_HISTORY_LEN 0, p⟩ v) (TEMP_HISTORY_LEN - 1)) 0 :=
    rfl
  rw [hstep, pushZeros_spike p v hp _ le_rfl, push]
  dsimp only
  have hpos : (p + 1 + (TEMP_HISTORY_LEN - 1)) % TEMP_HISTORY_LEN = p := by
    rw [hN] at hp ⊢; omega
  rw [hpos]
  congr 1
  exact set_set_same_zero _ _ _

/-! ### Helper lemmas about the control loop -/

lemma loopStep_hist (s : LoopState) (t : ℤ) : (loopStep s t).1.hist = push s.hist t := by
  rw [loopStep]
  split <;> rfl

lemma loopStep_prev (s : LoopState) (t : ℤ) :
    (loopStep s t).1.prev_duty = computedDuty s t := by
  rw [loopStep, computedDuty]
  split <;> simp_all

lemma loopStep_write_none_iff (s : LoopState) (t : ℤ) :
    (loopStep s t).2 = none ↔ computedDuty s t = s.prev_duty := by
  rw [loopStep, computedDuty]
  split <;> simp_all

lemma loopStep_write_some (s : LoopState) (t : ℤ)
    (h : computedDuty s t ≠ s.prev_duty) :
    (loopStep s t).2 = some (computedDuty s t) := by
  rw [loopStep, computedDuty] at *
  split <;> simp_all

/-! ### Claim theorems -/

/-- Claim C2: with the default parameters, the duty curve returns
MIN_DUTY = 10 for every temperature at or below MIN_DUTY_TEMP = 40 and
MAX_DUTY = 100 for every temperature at or above MAX_DUTY_TEMP = 70. -/
theorem duty_curve_bounds (t : ℤ) :
    (t ≤ 40 → temp_to_duty t = 10) ∧ (70 ≤ t → temp_to_duty t = 100) :=
  ⟨fun h => temp_to_duty_low h, fun h => temp_to_duty_high h⟩

theorem duty_curve_bounds_witness : temp_to_duty 30 = 10 ∧ temp_to_duty 80 = 100 :=
  ⟨(duty_curve_bounds 30).1 (by decide), (duty_curve_bounds 80).2 (by decide)⟩

/-- Claim C3: the duty curve is monotone non-decreasing over the whole
integer temperature domain. -/
theorem duty_curve_monotone (t1 t2 : ℤ) (h : t1 < t2) :
    temp_to_duty t1 ≤ temp_to_duty t2 :=
  temp_to_duty_mono (le_of_lt h)

theorem duty_curve_monotone_witness : temp_to_duty 50 ≤ temp_to_duty 60 :=
  duty_curve_monotone 50 60 (by decide)

/-- Claim C8: the worked example of the curve: temperature 55 scales to
x = 1/2, the pre-truncation duty value is 145/4 = 36.25, and the final
truncated duty is 36. -/
theorem curve_worked_example_55 :
    duty_x 55 = 1/2 ∧
    duty_y (duty_x 55) * (MAX_DUTY - MIN_DUTY) + MIN_DUTY = 145/4 ∧
    temp_to_duty 55 = 36 := by
  have hx : duty_x 55 = 1/2 := by
    rw [duty_x_eq, MIN_DUTY_TEMP, MAX_DUTY_TEMP]
    norm_num
  have hv : duty_y (duty_x 55) * (MAX_DUTY - MIN_DUTY) + MIN_DUTY = 145/4 := by
    rw [hx, duty_y, linear_component, MAX_DUTY, MIN_DUTY]; norm_num
  refine ⟨hx, hv, ?_⟩
  rw [temp_to_duty, hv, ctrunc_eq_floor (by norm_num), Int.floor_eq_iff]
  constructor <;> norm_num

/-- Claim C9: for every integer temperature the computed duty lies in
[10,100]; hence the write-path clamp `ec_write_sanitize` never changes a
loop-computed duty, and a computed duty can never equal the sentinel -1. -/
theorem computed_duty_in_range (t : ℤ) :
    10 ≤ temp_to_duty t ∧ temp_to_duty t ≤ 100 ∧
    ec_write_sanitize (temp_to_duty t) = temp_to_duty t ∧ temp_to_duty t ≠ -1 := by
  have h1 := temp_to_duty_ge t
  have h2 := temp_to_duty_le t
  refine ⟨h1, h2, ?_, by omega⟩
  rw [ec_write_sanitize_eq]; omega

/-- Claim C5: the duty-write operation clamps the requested percentage to
[10,100] before converting it to the transmitted byte; in particular a
request of 3% transmits the byte of 10%, and 150% transmits the byte of
100%. -/
theorem duty_write_clamps (d : ℤ) :
    ec_write_sanitize d = min 100 (max 10 d) ∧
    ec_write_fan_duty_byte d = ec_write_fan_duty_byte (min 100 (max 10 d)) ∧
    ec_write_fan_duty_byte 3 = ec_write_fan_duty_byte 10 ∧
    ec_write_fan_duty_byte 150 = ec_write_fan_duty_byte 100 := by
  refine ⟨ec_write_sanitize_eq d, ?_, ?_, ?_⟩
  · rw [ec_write_fan_duty_byte, ec_write_fan_duty_byte]
    have hs : ec_write_sanitize (min 100 (max 10 d)) = ec_write_sanitize d := by
      rw [ec_write_sanitize_eq, ec_write_sanitize_eq]; omega
    rw [hs]
  · rw [ec_write_fan_duty_byte, ec_write_fan_duty_byte,
      (by decide : ec_write_sanitize 3 = ec_write_sanitize 10)]
  · rw [ec_write_fan_duty_byte, ec_write_fan_duty_byte,
      (by decide : ec_write_sanitize 150 = ec_write_sanitize 100)]

/-- Claim C10: the fan-RPM computation is division-guarded: for byte
register values, a zero combined raw value yields 0 without dividing, and
a nonzero combined raw value is positive and yields 2156220 divided by it. -/
theorem fan_rpms_division_guarded (hi lo : ℤ)
    (h1 : 0 ≤ hi) (h2 : hi < 256) (h3 : 0 ≤ lo) (h4 : lo < 256) :
    (hi * 2 ^ 8 + lo = 0 → ec_query_fan_rpms hi lo = 0) ∧
    (hi * 2 ^ 8 + lo ≠ 0 → 0 < hi * 2 ^ 8 + lo ∧
      ec_query_fan_rpms hi lo = (2156220 : ℤ).tdiv (hi * 2 ^ 8 + lo)) := by
  have e : (2:ℤ) ^ 8 = 256 := by norm_num
  constructor
  · intro h0
    rw [ec_query_fan_rpms]
    rw [if_neg (by omega)]
  · intro h0
    have hpos : 0 < hi * 2 ^ 8 + lo := by rw [e] at *; omega
    exact ⟨hpos, by rw [ec_query_fan_rpms, if_pos hpos]⟩

theorem fan_rpms_division_guarded_witness :
    ec_query_fan_rpms 0 0 = 0 ∧ ec_query_fan_rpms 1 4 = 8293 := by
  constructor
  · exact (fan_rpms_division_guarded 0 0 (by decide) (by decide) (by decide)
      (by decide)).1 (by decide)
  · have h := (fan_rpms_division_guarded 1 4 (by decide) (by decide) (by decide)
      (by decide)).2 (by decide)
    rw [h.2]; decide

/-- Claim C4: if the awaited status flag never attains the desired value,
`ec_io_wait` performs exactly 100 bounded polling iterations (each after a
1 ms sleep), emits the diagnostic warning, and returns the last observed
data byte instead of blocking. -/
theorem handshake_timeout_bounded (inbAt : ℕ → ℕ) (flag value : ℕ)
    (h : ∀ n, (inbAt n >>> flag) &&& 1 ≠ value) :
    ec_io_wait inbAt flag value = (inbAt 100, 100, true) := by
  rw [ec_io_wait, ec_io_wait_go_never inbAt flag value h 100 0]

theorem handshake_timeout_bounded_witness :
    (∀ n : ℕ, (((fun _ => 0) : ℕ → ℕ) n >>> 0) &&& 1 ≠ 1) ∧
    ec_io_wait (fun _ => 0) 0 1 = (0, 100, true) :=
  ⟨fun _ => (by decide : ((0:ℕ) >>> 0) &&& 1 ≠ 1),
   handshake_timeout_bounded (fun _ => 0) 0 1
     (fun _ => (by decide : ((0:ℕ) >>> 0) &&& 1 ≠ 1))⟩

/-- Claim C7: starting from the all-zero history window of capacity
TEMP_HISTORY_LEN with any cursor, pushing one positive spike and then
zero samples, the windowed maximum stays at the spike value through the
first TEMP_HISTORY_LEN - 1 subsequent pushes and becomes 0 exactly at the
TEMP_HISTORY_LEN-th subsequent push, when the spike slot is overwritten. -/
theorem history_spike_aging (p : ℕ) (v : ℤ)
    (hp : p < TEMP_HISTORY_LEN) (hv : 0 < v) :
    (∀ k, k ≤ TEMP_HISTORY_LEN - 1 →
      windowedMax (pushZeros (push ⟨List.replicate TEMP_HISTORY_LEN 0, p⟩ v) k) = v) ∧
    windowedMax (pushZeros (push ⟨List.replicate TEMP_HISTORY_LEN 0, p⟩ v)
      TEMP_HISTORY_LEN) = 0 := by
  constructor
  · intro k hk
    rw [pushZeros_spike p v hp k hk, windowedMax]
    exact foldl_cMax_spike _ p v hp (le_of_lt hv)
  · rw [pushZeros_full p v hp, windowedMax]
    exact foldl_cMax_replicate_zero _ le_rfl

theorem history_spike_aging_witness :
    windowedMax (pushZeros (push ⟨List.replicate TEMP_HISTORY_LEN 0, 0⟩ 7)
      (TEMP_HISTORY_LEN - 1)) = 7 ∧
    windowedMax (pushZeros (push ⟨List.replicate TEMP_HISTORY_LEN 0, 0⟩ 7)
      TEMP_HISTORY_LEN) = 0 :=
  ⟨(history_spike_aging 0 7 (by decide) (by decide)).1 _ le_rfl,
   (history_spike_aging 0 7 (by decide) (by decide)).2⟩

/-- Claim C6: the very first control-loop cycle always performs a
hardware duty write, whatever temperature is sampled, because
`prev_duty` starts at the sentinel -1, which no computed duty can equal. -/
theorem first_cycle_always_writes (t : ℤ) :
    (loopStep initState t).2 = some (computedDuty initState t) ∧
    initState.prev_duty = -1 ∧ ∀ d : ℤ, temp_to_duty d ≠ -1 := by
  refine ⟨?_, rfl, fun d => by have := temp_to_duty_ge d; omega⟩
  apply loopStep_write_some
  have hpre : initState.prev_duty = -1 := rfl
  rw [hpre, computedDuty]
  have := temp_to_duty_ge (windowedMax (push initState.hist t))
  omega

/-- Claim C1 (amended): in every cycle, a duty write occurs if and only
if the newly computed duty differs from the last duty actually written
(`prev_duty`); the last-written-duty state is updated exactly by writes;
and when two consecutive cycles compute the identical duty, the second
cycle performs no write, so the pair performs at most one write — exactly
one precisely when the first cycle of the pair writes, i.e. when its
computed duty differs from the duty last written before it. -/
theorem write_iff_duty_changed (s : LoopState) (t1 t2 : ℤ) :
    ((loopStep s t1).2 ≠ none ↔ computedDuty s t1 ≠ s.prev_duty) ∧
    ((loopStep s t1).2 = none → (loopStep s t1).1.prev_duty = s.prev_duty) ∧
    (∀ d, (loopStep s t1).2 = some d →
      d = computedDuty s t1 ∧ (loopStep s t1).1.prev_duty = d) ∧
    (computedDuty (loopStep s t1).1 t2 = computedDuty s t1 →
      (loopStep (loopStep s t1).1 t2).2 = none ∧
      writeCount [(loopStep s t1).2, (loopStep (loopStep s t1).1 t2).2] =
        if computedDuty s t1 ≠ s.prev_duty then 1 else 0) := by
  by_cases h : computedDuty s t1 = s.prev_duty
  · have hw : (loopStep s t1).2 = none := (loopStep_write_none_iff s t1).mpr h
    refine ⟨?_, ?_, ?_, ?_⟩
    · rw [hw]; simp [h]
    · intro _; rw [loopStep_prev]; exact h
    · intro d hd; rw [hw] at hd; exact absurd hd (by simp)
    · intro he
      have h2 : computedDuty (loopStep s t1).1 t2 = (loopStep s t1).1.prev_duty := by
        rw [loopStep_prev]; exact he
      have hw2 := (loopStep_write_none_iff _ _).mpr h2
      refine ⟨hw2, ?_⟩
      rw [hw, hw2, if_neg (by simpa using h)]
      rfl
  · have hw := loopStep_write_some s t1 h
    refine ⟨?_, ?_, ?_, ?_⟩
    · rw [hw]; simp [h]
    · intro hn; rw [hw] at hn; exact absurd hn (by simp)
    · intro d hd
      rw [hw] at hd
      have hd2 := (Option.some.injEq _ _ ▸ hd : computedDuty s t1 = d)
      exact ⟨hd2.symm, by rw [loopStep_prev]; exact hd2⟩
    · intro he
      have h2 : computedDuty (loopStep s t1).1 t2 = (loopStep s t1).1.prev_duty := by
        rw [loopStep_prev]; exact he
      have hw2 := (loopStep_write_none_iff _ _).mpr h2
      refine ⟨hw2, ?_⟩
      rw [hw, hw2, if_pos h]
      rfl

/-- Claim C1 counterexample: running three cycles from the start state
with constant sampled temperature 50, the second and third cycles are
two consecutive cycles that compute the identical duty, yet zero
physical writes occur in them (the single write happened in the first
cycle), refuting "exactly one physical write" for that pair. -/
theorem write_suppression_pair_counterexample :
    computedDuty (loopStep (loopStep initState 50).1 50).1 50 =
      computedDuty (loopStep initState 50).1 50 ∧
    writeCount [(loopStep (loopStep initState 50).1 50).2,
      (loopStep (loopStep (loopStep initState 50).1 50).1 50).2] = 0 := by
  have e1 : computedDuty (loopStep initState 50).1 50 = computedDuty initState 50 := by
    simp only [computedDuty, loopStep_hist]
    exact congrArg temp_to_duty (by decide)
  have e2 : computedDuty (loopStep (loopStep initState 50).1 50).1 50 =
      computedDuty (loopStep initState 50).1 50 := by
    simp only [computedDuty, loopStep_hist]
    exact congrArg temp_to_duty (by decide)
  have hw2 : (loopStep (loopStep initState 50).1 50).2 = none := by
    rw [loopStep_write_none_iff, loopStep_prev]; exact e1
  have hw3 : (loopStep (loopStep (loopStep initState 50).1 50).1 50).2 = none := by
    rw [loopStep_write_none_iff, loopStep_prev]; exact e2
  exact ⟨e2, by rw [hw2, hw3]; rfl⟩

theorem write_iff_duty_changed_witness :
    (loopStep (loopStep initState 50).1 50).2 = none := by
  have e1 : computedDuty (loopStep initState 50).1 50 = computedDuty initState 50 := by
    simp only [computedDuty, loopStep_hist]
    exact congrArg temp_to_duty (by decide)
  exact ((write_iff_duty_changed initState 50 50).2.2.2 e1).1
